import Mathlib

/-!
Verification of the bench layer of an EfficientDet-style detector
(`effdet/bench.py`): the output formatter `conv_predictions`, the top-k
post-processing `_post_process`, the target collation `my_fast_collate`,
the training bench `DetBenchTrain.forward` / `DetBenchTrainOrig.forward`,
and the model unwrapper `unwrap_bench`.

Modelling conventions.  Tensors are lists (one list level per tensor
dimension); floating point values are rationals; the class column of a
detection row, which the code reads with `int(segment[5])`, is an integer.
The external collaborators that are out of scope for the bench module
(backbone/head network, anchor generation and labeling, the loss function,
`generate_detections`) are passed in as opaque values: the bench functions
below receive the loss triple and the decoded detection tensor as
arguments, exactly as the orchestration code receives them from those
collaborators.
-/

/-- Number of dimensions of `t.nonzero().squeeze()` when `t` is a 1-D
boolean tensor with `n` true entries: `nonzero` yields shape `(n, 1)` and
`squeeze` drops every axis of size 1, so the result is 0-dimensional
exactly when `n = 1` (and 1-dimensional otherwise, including `n = 0`). -/
def squeezedDim (n : Nat) : Nat :=
  if n = 1 then 0 else 1

/-- One row of the detection tensor produced by `_batch_detection`:
columns `[x1, y1, x2, y2, score, class]`.  The four box coordinates are
kept as a quadruple, the score as a rational, and the class column (a
whole number stored as a float, read back via `int(segment[5])`) as an
integer. -/
structure Segment where
  box : ℚ × ℚ × ℚ × ℚ
  score : ℚ
  cls : ℤ
  deriving DecidableEq, Repr

/-- One per-image entry of the formatter output: the mapping
`{boxes, labels, scores}` appended to `result` by `conv_predictions`. -/
structure ImageResult where
  boxes : List (ℚ × ℚ × ℚ × ℚ)
  labels : List ℤ
  scores : List ℚ
  deriving DecidableEq, Repr

/-- The `output` dictionary moved between the bench forward methods and
`conv_predictions`.  Each optional field models presence of the
corresponding key (`loss`, `class_loss`, `box_loss` are set by
`DetBenchTrain.forward`; `loss_box` by `DetBenchTrainOrig.forward`;
`detections` by either). -/
structure OutputMap where
  loss : Option ℚ := none
  class_loss : Option ℚ := none
  box_loss : Option ℚ := none
  loss_box : Option ℚ := none
  detections : Option (List (List Segment)) := none
  deriving DecidableEq, Repr

/-- Return type of `conv_predictions`: the function either returns its
argument dictionary unchanged (no `detections` key) or a variable-length
list of per-image results. -/
inductive ConvResult where
  | unchanged (m : OutputMap)
  | formatted (l : List ImageResult)
  deriving DecidableEq, Repr

/-- The score threshold literal `.1` of `conv_predictions`, written in
normalized form. -/
def scoreThreshold : ℚ := mkRat 1 10

/-- Loop body prefix of `conv_predictions`: iterate the rows of one
image's detections in order and break at the first row whose score is
below `0.1`. -/
def keptSegments (img : List Segment) : List Segment :=
  img.takeWhile fun s => !decide (s.score < scoreThreshold)

/-- Rows of one image that survive both the score threshold scan and the
background filter: after shifting labels by `-1`, the code keeps exactly
the positions whose shifted label differs from `-1`
(`indices_to_keep = (segments_labels != -1).nonzero()`); since the three
per-image lists (`boxes`, `labels`, `scores`) are parallel projections of
the kept rows, indexing all three by those positions equals filtering the
kept rows. -/
def survivors (img : List Segment) : List Segment :=
  (keptSegments img).filter fun s => decide (s.cls - 1 ≠ -1)

/-- Per-image body of `conv_predictions`.  `indices_to_keep` is squeezed,
so when exactly one row survives the indexed label tensor is
0-dimensional and the final guard
`len(segments_labels.shape) > 0 and len(segments_labels) > 0`
rejects the image; the image is appended only when the guard passes. -/
def convImage (img : List Segment) : Option ImageResult :=
  if 0 < squeezedDim (survivors img).length ∧ 0 < (survivors img).length then
    some { boxes := (survivors img).map Segment.box
           labels := (survivors img).map fun s => s.cls - 1
           scores := (survivors img).map Segment.score }
  else
    none

/-- Model of `conv_predictions`: if the dictionary has no `detections`
key it is returned unchanged, otherwise the per-image list is built (one
entry per image passing the final guard, in batch order). -/
def conv_predictions (m : OutputMap) : ConvResult :=
  match m.detections with
  | none => ConvResult.unchanged m
  | some dets => ConvResult.formatted (dets.filterMap convImage)

/-! Top-k selection (`_post_process`).  A per-level classification output
is modelled, after the `permute`/`reshape` of step 1, as a list of
per-location class-score rows; `torch.cat` along the location axis is
list flattening.  Per-image processing is independent across the batch,
so the batch function maps the per-image function. -/

/-- Model of `torch.topk(xs, k)` index output on a 1-D tensor: indices of
the `k` largest values in descending value order.  `torch.topk` leaves
tie order unspecified; the model resolves ties by taking the earlier
index first. -/
def topkIndices (xs : List ℚ) (k : Nat) : List Nat :=
  ((xs.enum.mergeSort fun a b => decide (b.2 < a.2 ∨ (a.2 = b.2 ∧ a.1 ≤ b.1))).take k).map
    Prod.fst

/-- Model of `torch.gather(rows, 1, idx)` with the index expanded along
the trailing axis: pick whole rows at the given location indices. -/
def gather1 (rows : List (List ℚ)) (idx : List Nat) : List (List ℚ) :=
  idx.map fun i => rows.getD i []

/-- Model of `torch.gather(rows, 2, classes)` on already
location-gathered rows: from each row pick the entry at the paired class
index. -/
def gather2 (rows : List (List ℚ)) (idx : List Nat) : List ℚ :=
  (rows.zip idx).map fun p => p.1.getD p.2 0

/-- The four per-image outputs of `_post_process`. -/
structure PostProcessResult where
  cls_after_topk : List ℚ
  box_after_topk : List (List ℚ)
  indices : List Nat
  classes : List Nat
  deriving DecidableEq, Repr

/-- Per-image computation of `_post_process`: concatenate levels, take
the top `k` over the jointly flattened (location, class) axes, decompose
each flat index by division and modulo by the class count, gather boxes
by location and class scores by the two-stage gather. -/
def post_process_image (numClasses k : Nat)
    (cls_levels box_levels : List (List (List ℚ))) : PostProcessResult :=
  let cls_outputs_all := cls_levels.flatten
  let box_outputs_all := box_levels.flatten
  let cls_topk_indices := topkIndices cls_outputs_all.flatten k
  let indices_all := cls_topk_indices.map fun i => i / numClasses
  let classes_all := cls_topk_indices.map fun i => i % numClasses
  { cls_after_topk := gather2 (gather1 cls_outputs_all indices_all) classes_all
    box_after_topk := gather1 box_outputs_all indices_all
    indices := indices_all
    classes := classes_all }

/-- Model of `_post_process` over a batch: each batch element carries its
per-level classification rows and per-level box rows. -/
def _post_process (numClasses k : Nat)
    (batch : List ((List (List (List ℚ))) × (List (List (List ℚ))))) :
    List PostProcessResult :=
  batch.map fun p => post_process_image numClasses k p.1 p.2

/-! Target collation (`my_fast_collate`). -/

/-- The instance cap constant of `my_fast_collate`. -/
def MAX_NUM_INSTANCES : Nat := 75

/-- One per-image value of a target-annotation field.  `tens1`/`tens2`
model 1-D and 2-D instance tensors or numpy arrays (a 2-D tensor of shape
`(n, d)` carries its trailing width `d` explicitly, as tensor shapes do);
`scalar` models a per-batch python scalar; `seq` models a per-batch
tuple or list. -/
inductive FieldVal where
  | tens1 (v : List ℚ)
  | tens2 (d : Nat) (v : List (List ℚ))
  | scalar (x : ℚ)
  | seq (xs : List ℚ)
  deriving DecidableEq, Repr

/-- One batched field value produced by `my_fast_collate`. -/
inductive BatchedVal where
  | btens1 (rows : List (List ℚ))
  | btens2 (d : Nat) (rows : List (List (List ℚ)))
  | bscalar (xs : List ℚ)
  | bseq (rows : List (List ℚ))
  deriving DecidableEq, Repr

/-- Model of the torch slice assignment `dst[0 : src.length] = src` on a
freshly allocated row `dst`: the slice clamps to `dst.length`, and the
assignment requires the source length to match the clamped slice length,
so it succeeds exactly when `src.length ≤ dst.length`, leaving the tail
of `dst` untouched; otherwise torch raises a size-mismatch error. -/
def sliceAssign {α : Type} (dst src : List α) : Except String (List α) :=
  if src.length ≤ dst.length then
    Except.ok (src ++ dst.drop src.length)
  else
    Except.error "size mismatch"

/-- Fill of one image row of a batched 1-D instance field:
`target[tk][i, 0:tv.shape[0]] = tv` on a zero row of length
`MAX_NUM_INSTANCES`. -/
def fillRow1 (tv : List ℚ) : Except String (List ℚ) :=
  sliceAssign (List.replicate MAX_NUM_INSTANCES (0 : ℚ)) tv

/-- Fill of one image row of a batched 2-D instance field: the zero row
has shape `(MAX_NUM_INSTANCES, d)`. -/
def fillRow2 (d : Nat) (tv : List (List ℚ)) : Except String (List (List ℚ)) :=
  sliceAssign (List.replicate MAX_NUM_INSTANCES (List.replicate d (0 : ℚ))) tv

/-- Error-propagating map over a list, mirroring a python loop that
raises at the first failing iteration. -/
def mapCollect {α β : Type} (f : α → Except String β) : List α → Except String (List β)
  | [] => Except.ok []
  | x :: xs =>
    match f x, mapCollect f xs with
    | Except.ok y, Except.ok ys => Except.ok (y :: ys)
    | Except.error e, _ => Except.error e
    | Except.ok _, Except.error e => Except.error e

/-- Collation of one field across the batch: the first image's value
(`targets[0][k]`) fixes the allocated shape and kind, then each image's
value is written into its row.  A value whose kind or trailing width
disagrees with the allocation makes the torch write fail, modelled as an
error. -/
def collateField (vals : List FieldVal) : Except String BatchedVal :=
  match vals.head? with
  | none => Except.error "IndexError"
  | some (FieldVal.tens1 _) =>
    (mapCollect (fun v =>
      match v with
      | FieldVal.tens1 tv => fillRow1 tv
      | _ => Except.error "type mismatch") vals).map BatchedVal.btens1
  | some (FieldVal.tens2 d _) =>
    (mapCollect (fun v =>
      match v with
      | FieldVal.tens2 dv tv =>
        if dv = d then fillRow2 d tv else Except.error "size mismatch"
      | _ => Except.error "type mismatch") vals).map (BatchedVal.btens2 d)
  | some (FieldVal.scalar _) =>
    (mapCollect (fun v =>
      match v with
      | FieldVal.scalar x => Except.ok x
      | _ => Except.error "type mismatch") vals).map BatchedVal.bscalar
  | some (FieldVal.seq xs0) =>
    (mapCollect (fun v =>
      match v with
      | FieldVal.seq xs =>
        if xs.length = xs0.length then Except.ok xs else Except.error "size mismatch"
      | _ => Except.error "type mismatch") vals).map BatchedVal.bseq

/-- Dictionary lookup in a per-image target record. -/
def lookupField (k : String) (t : List (String × FieldVal)) : Option FieldVal :=
  (t.find? fun kv => kv.1 == k).map fun kv => kv.2

/-- Dictionary lookup in the batched target record. -/
def lookupBatched (k : String) (t : List (String × BatchedVal)) : Option BatchedVal :=
  (t.find? fun kv => kv.1 == k).map fun kv => kv.2

/-- Model of `my_fast_collate`: the keys of `targets[0]` determine the
allocated batched fields; every image must supply each key (a missing key
is the python `KeyError`).  The python fill loop runs image-major and
key-minor; since each (image, key) write is independent, collating
key-by-key is the same transform. -/
def my_fast_collate (targets : List (List (String × FieldVal))) :
    Except String (List (String × BatchedVal)) :=
  match targets with
  | [] => Except.error "IndexError"
  | t0 :: _ =>
    mapCollect (fun kv =>
      match mapCollect (fun t =>
          match lookupField kv.1 t with
          | some v => Except.ok v
          | none => Except.error "KeyError") targets with
      | Except.error e => Except.error e
      | Except.ok vals =>
        match collateField vals with
        | Except.error e => Except.error e
        | Except.ok b => Except.ok (kv.1, b)) t0

/-! Training bench forward methods. -/

/-- Message of a failed python `assert`. -/
def assertionError : String := "AssertionError"

/-- Truth of `(t != 1.0).any() == False` for a batched value: every
stored entry equals `1`. -/
def allOnes : BatchedVal → Bool
  | BatchedVal.bscalar xs => xs.all fun x => decide (x = 1)
  | BatchedVal.btens1 rows => rows.all fun r => r.all fun x => decide (x = 1)
  | BatchedVal.btens2 _ rows =>
    rows.all fun r => r.all fun q => q.all fun x => decide (x = 1)
  | BatchedVal.bseq rows => rows.all fun r => r.all fun x => decide (x = 1)

/-- Model of `DetBenchTrain.forward` with targets present: collate the
targets, build the output dictionary with the loss and its two
components, assert that every collated image scale equals `1.0`, then
unconditionally compute and attach the detection tensor and return the
dictionary.  The network, anchor labeler, loss function and detection
decoder are external: their results are the `loss`, `class_loss`,
`box_loss` and `dets` arguments.  The `training` flag is the module's
`self.training`. -/
def detBenchTrain_forward_targets (training : Bool)
    (targets : List (List (String × FieldVal)))
    (loss class_loss box_loss : ℚ) (dets : List (List Segment)) :
    Except String OutputMap :=
  match my_fast_collate targets with
  | Except.error e => Except.error e
  | Except.ok target =>
    let output : OutputMap :=
      { loss := some loss, class_loss := some class_loss, box_loss := some box_loss }
    match lookupBatched "img_scale" target with
    | none => Except.error "KeyError"
    | some scale =>
      if allOnes scale then
        Except.ok { output with detections := some dets }
      else
        Except.error assertionError

/-- Model of `DetBenchTrain.forward` without targets: assert that every
image scale returned by `images.get_images_scales()` equals `1.0`, then
return the dictionary holding only the detection tensor. -/
def detBenchTrain_forward_noTargets (img_scales : List ℚ)
    (dets : List (List Segment)) : Except String OutputMap :=
  if img_scales.all fun s => decide (s = 1) then
    Except.ok { detections := some dets }
  else
    Except.error assertionError

/-- Model of `DetBenchTrainOrig.forward` with targets present: the output
dictionary holds the combined loss under the single key `loss_box`; the
detection tensor is attached only when not in training mode; the result
is passed through `conv_predictions`. -/
def detBenchTrainOrig_forward_targets (training : Bool) (loss : ℚ)
    (dets : List (List Segment)) : ConvResult :=
  let output : OutputMap := { loss_box := some loss }
  let output := if training then output else { output with detections := some dets }
  conv_predictions output

/-! Model unwrapper (`unwrap_bench`). -/

/-- Closed universe of wrapped model objects probed by `unwrap_bench`:
an EMA holder (`isinstance(model, ModelEma)`, field `ema`), a distributed
replica holder (attribute `module`), a bench holder (attribute `model`),
or a raw network carrying none of those attributes. -/
inductive WrappedModel where
  | raw (id : Nat)
  | ema (inner : WrappedModel)
  | ddp (inner : WrappedModel)
  | bench (inner : WrappedModel)
  deriving DecidableEq, Repr

/-- Model of `unwrap_bench`: recursively strip the outermost known
wrapper until none applies. -/
def unwrap_bench : WrappedModel → WrappedModel
  | WrappedModel.ema m => unwrap_bench m
  | WrappedModel.ddp m => unwrap_bench m
  | WrappedModel.bench m => unwrap_bench m
  | WrappedModel.raw n => WrappedModel.raw n

/-! Helper lemmas about the output formatter. -/

/-- The final per-image guard of `conv_predictions` passes exactly when at
least two rows survive. -/
lemma squeezedDim_pos_iff (n : Nat) : (0 < squeezedDim n ∧ 0 < n) ↔ 2 ≤ n := by
  unfold squeezedDim
  by_cases h : n = 1 <;> simp [h] <;> omega

lemma convImage_isSome_iff (img : List Segment) :
    (convImage img).isSome ↔ 2 ≤ (survivors img).length := by
  by_cases h : 0 < squeezedDim (survivors img).length ∧ 0 < (survivors img).length
  · rw [convImage, if_pos h]
    simpa using (squeezedDim_pos_iff _).mp h
  · rw [convImage, if_neg h]
    simp only [Option.isSome_none, Bool.false_eq_true, false_iff]
    exact fun h2 => h ((squeezedDim_pos_iff _).mpr h2)

lemma length_filterMap_convImage (dets : List (List Segment)) :
    (dets.filterMap convImage).length
      = dets.countP fun img => decide (2 ≤ (survivors img).length) := by
  induction dets with
  | nil => rfl
  | cons img rest ih =>
    rw [List.filterMap_cons, List.countP_cons]
    by_cases h : 2 ≤ (survivors img).length
    · obtain ⟨r, hr⟩ := Option.isSome_iff_exists.mp ((convImage_isSome_iff img).mpr h)
      rw [hr]
      simp [h, ih]
    · have hnone : convImage img = none := by
        cases hc : convImage img with
        | none => rfl
        | some r => exact absurd ((convImage_isSome_iff img).mp (by simp [hc])) h
      rw [hnone]
      simp [h, ih]

/-- C1 (corrected).  The formatter emits exactly one mapping per image
with at least TWO surviving detections; images with zero or exactly one
surviving detection are omitted from the output list (the single-survivor
case is dropped by the squeeze of the keep-index tensor). -/
theorem conv_predictions_count (dets : List (List Segment)) (rs : List ImageResult)
    (h : conv_predictions { detections := some dets } = ConvResult.formatted rs) :
    rs.length = dets.countP fun img => decide (2 ≤ (survivors img).length) := by
  have hrs : dets.filterMap convImage = rs := by
    simpa [conv_predictions] using h
  rw [← hrs, length_filterMap_convImage]

theorem conv_predictions_count_witness :
    (([[{ box := (0, 0, 1, 1), score := mkRat 9 10, cls := 3 },
         { box := (0, 0, 2, 2), score := mkRat 8 10, cls := 1 }],
        [{ box := (0, 0, 1, 1), score := mkRat 1 20, cls := 3 },
         { box := (0, 0, 2, 2), score := mkRat 1 25, cls := 2 }],
        [{ box := (0, 0, 3, 3), score := mkRat 7 10, cls := 5 },
         { box := (0, 0, 4, 4), score := mkRat 6 10, cls := 4 }]] :
        List (List Segment)).filterMap convImage).length
      = ([[{ box := (0, 0, 1, 1), score := mkRat 9 10, cls := 3 },
           { box := (0, 0, 2, 2), score := mkRat 8 10, cls := 1 }],
          [{ box := (0, 0, 1, 1), score := mkRat 1 20, cls := 3 },
           { box := (0, 0, 2, 2), score := mkRat 1 25, cls := 2 }],
          [{ box := (0, 0, 3, 3), score := mkRat 7 10, cls := 5 },
           { box := (0, 0, 4, 4), score := mkRat 6 10, cls := 4 }]] :
          List (List Segment)).countP (fun img => decide (2 ≤ (survivors img).length))
    ∧ (([[{ box := (0, 0, 1, 1), score := mkRat 9 10, cls := 3 },
          { box := (0, 0, 2, 2), score := mkRat 8 10, cls := 1 }],
         [{ box := (0, 0, 1, 1), score := mkRat 1 20, cls := 3 },
          { box := (0, 0, 2, 2), score := mkRat 1 25, cls := 2 }],
         [{ box := (0, 0, 3, 3), score := mkRat 7 10, cls := 5 },
          { box := (0, 0, 4, 4), score := mkRat 6 10, cls := 4 }]] :
         List (List Segment)).filterMap convImage).length = 2 :=
  ⟨conv_predictions_count _ _ rfl, by decide⟩

/-- C1 counterexample.  An image with exactly one surviving detection
(score `0.9` above threshold, shifted label `2`) is dropped from the
output entirely, so the claim that every image with at least one
surviving detection gets an entry is false. -/
theorem conv_predictions_drops_single_survivor :
    1 ≤ (survivors [{ box := (0, 0, 1, 1), score := mkRat 9 10, cls := 3 }]).length
    ∧ conv_predictions
        { detections := some [[{ box := (0, 0, 1, 1), score := mkRat 9 10, cls := 3 }]] }
      = ConvResult.formatted [] := by
  decide

/-- Executable check that a score column is non-increasing (the
descending-score invariant of the detection tensor). -/
def scoresNonIncreasing : List ℚ → Bool
  | [] => true
  | [_] => true
  | a :: b :: rest => decide (b ≤ a) && scoresNonIncreasing (b :: rest)

/-- C6 (confirmed).  On detections whose per-image scores are
non-increasing, the formatter never emits a score below the `0.1`
threshold nor a shifted label equal to `-1`. -/
theorem conv_predictions_threshold_background (dets : List (List Segment))
    (hsorted : ∀ img ∈ dets, scoresNonIncreasing (img.map Segment.score) = true)
    (rs : List ImageResult)
    (h : conv_predictions { detections := some dets } = ConvResult.formatted rs)
    (r : ImageResult) (hr : r ∈ rs) :
    (∀ s ∈ r.scores, ¬ s < scoreThreshold) ∧ ∀ l ∈ r.labels, l ≠ -1 := by
  have hrs : dets.filterMap convImage = rs := by
    simpa [conv_predictions] using h
  rw [← hrs] at hr
  obtain ⟨img, _, hconv⟩ := List.mem_filterMap.mp hr
  by_cases hc : 0 < squeezedDim (survivors img).length ∧ 0 < (survivors img).length
  · rw [convImage, if_pos hc] at hconv
    obtain rfl := Option.some.inj hconv
    constructor
    · intro s hs
      obtain ⟨seg, hseg, rfl⟩ := List.mem_map.mp hs
      have h1 : seg ∈ keptSegments img := List.mem_of_mem_filter hseg
      have h2 := List.mem_takeWhile_imp h1
      simpa using h2
    · intro l hl
      obtain ⟨seg, hseg, rfl⟩ := List.mem_map.mp hl
      simpa using List.of_mem_filter hseg
  · rw [convImage, if_neg hc] at hconv
    exact absurd hconv (Option.some_ne_none _).symm

theorem conv_predictions_threshold_background_witness :
    ¬ (mkRat 8 10 : ℚ) < scoreThreshold ∧ ((0 : ℤ) ≠ -1) :=
  ⟨(conv_predictions_threshold_background
      [[{ box := (0, 0, 1, 1), score := mkRat 9 10, cls := 3 },
        { box := (0, 0, 2, 2), score := mkRat 8 10, cls := 1 }]]
      (by decide) _ rfl
      { boxes := [(0, 0, 1, 1), (0, 0, 2, 2)], labels := [2, 0],
        scores := [mkRat 9 10, mkRat 8 10] }
      (by decide)).1 (mkRat 8 10) (by decide),
   (conv_predictions_threshold_background
      [[{ box := (0, 0, 1, 1), score := mkRat 9 10, cls := 3 },
        { box := (0, 0, 2, 2), score := mkRat 8 10, cls := 1 }]]
      (by decide) _ rfl
      { boxes := [(0, 0, 1, 1), (0, 0, 2, 2)], labels := [2, 0],
        scores := [mkRat 9 10, mkRat 8 10] }
      (by decide)).2 0 (by decide)⟩

/-- C10 (confirmed).  A dictionary without the `detections` key is
returned by `conv_predictions` unchanged. -/
theorem conv_predictions_no_detections (m : OutputMap) (h : m.detections = none) :
    conv_predictions m = ConvResult.unchanged m := by
  simp only [conv_predictions, h]

theorem conv_predictions_no_detections_witness :
    conv_predictions { loss := some 5 } = ConvResult.unchanged { loss := some 5 } :=
  conv_predictions_no_detections _ rfl

/-- C9 (confirmed).  The model unwrapper is a fixed point on raw models
and strips a triple-nested EMA, replica, bench wrapper down to the
innermost raw model. -/
theorem unwrap_bench_fixed_point :
    (∀ n : Nat, unwrap_bench (WrappedModel.raw n) = WrappedModel.raw n)
    ∧ ∀ n : Nat,
        unwrap_bench
            (WrappedModel.ema (WrappedModel.ddp (WrappedModel.bench (WrappedModel.raw n))))
          = WrappedModel.raw n :=
  ⟨fun _ => rfl, fun _ => rfl⟩

/-! Training bench claims. -/

/-- C2 (corrected, amended part).  With targets present and the scale
assertion passing, `DetBenchTrain.forward` returns the scalar loss with
its class and box components AND the detection tensor, in training mode
as well as in eval mode: the attach step is unconditional in this forward
method (the training-mode-only attach belongs to `DetBenchTrainOrig`). -/
theorem detBenchTrain_forward_output_fields (training : Bool)
    (targets : List (List (String × FieldVal)))
    (loss class_loss box_loss : ℚ) (dets : List (List Segment))
    (target : List (String × BatchedVal))
    (hcol : my_fast_collate targets = Except.ok target)
    (scales : List ℚ)
    (hscale : lookupBatched "img_scale" target = some (BatchedVal.bscalar scales))
    (h1 : ∀ s ∈ scales, s = 1) :
    detBenchTrain_forward_targets training targets loss class_loss box_loss dets
      = Except.ok { loss := some loss, class_loss := some class_loss,
                    box_loss := some box_loss, detections := some dets } := by
  have hall : allOnes (BatchedVal.bscalar scales) = true := by
    simp only [allOnes, List.all_eq_true, decide_eq_true_eq]
    exact h1
  simp only [detBenchTrain_forward_targets, hcol, hscale, hall, if_pos]

theorem detBenchTrain_forward_output_fields_witness :
    detBenchTrain_forward_targets false [[("img_scale", FieldVal.scalar 1)]] 1 2 3
        [[{ box := (0, 0, 1, 1), score := mkRat 1 2, cls := 2 }]]
      = Except.ok { loss := some 1, class_loss := some 2, box_loss := some 3,
                    detections := some [[{ box := (0, 0, 1, 1), score := mkRat 1 2, cls := 2 }]] } :=
  detBenchTrain_forward_output_fields false _ 1 2 3 _ _ rfl [1] rfl (by decide)

/-- C2 counterexample.  In training mode (`self.training = true`) the
forward method still computes and attaches the detection tensor, so the
claim that detections are attached only when not in training mode is
false. -/
theorem detBenchTrain_attaches_detections_in_training :
    detBenchTrain_forward_targets true [[("img_scale", FieldVal.scalar 1)]] 1 2 3
        [[{ box := (0, 0, 1, 1), score := mkRat 1 2, cls := 2 }]]
      = Except.ok { loss := some 1, class_loss := some 2, box_loss := some 3,
                    detections := some [[{ box := (0, 0, 1, 1), score := mkRat 1 2, cls := 2 }]] } := by
  rfl

/-- C3 (confirmed).  In both branches of `DetBenchTrain.forward`, a batch
containing any image scale different from `1.0` makes the assertion fail
(the call raises), and a batch whose scales are all exactly `1.0` passes
the assertion and continues to a normal result. -/
theorem detBenchTrain_scale_assertion (training : Bool)
    (targets : List (List (String × FieldVal)))
    (loss class_loss box_loss : ℚ) (dets : List (List Segment))
    (target : List (String × BatchedVal))
    (hcol : my_fast_collate targets = Except.ok target)
    (scales : List ℚ)
    (hscale : lookupBatched "img_scale" target = some (BatchedVal.bscalar scales)) :
    ((∃ s ∈ scales, s ≠ 1) →
      detBenchTrain_forward_targets training targets loss class_loss box_loss dets
          = Except.error assertionError
        ∧ detBenchTrain_forward_noTargets scales dets = Except.error assertionError)
    ∧ ((∀ s ∈ scales, s = 1) →
      (∃ out, detBenchTrain_forward_targets training targets loss class_loss box_loss dets
          = Except.ok out)
        ∧ ∃ out, detBenchTrain_forward_noTargets scales dets = Except.ok out) := by
  constructor
  · rintro ⟨s, hs, hne⟩
    have hall : (scales.all fun x => decide (x = 1)) = false := by
      rw [List.all_eq_false]
      exact ⟨s, hs, by simpa using hne⟩
    have hall2 : allOnes (BatchedVal.bscalar scales) = false := hall
    constructor
    · simp only [detBenchTrain_forward_targets, hcol, hscale, hall2,
        Bool.false_eq_true, if_false]
    · simp only [detBenchTrain_forward_noTargets, hall, Bool.false_eq_true, if_false]
  · intro h1
    have hall : (scales.all fun x => decide (x = 1)) = true := by
      simp only [List.all_eq_true, decide_eq_true_eq]
      exact h1
    have hall2 : allOnes (BatchedVal.bscalar scales) = true := hall
    constructor
    · refine ⟨{ loss := some loss, class_loss := some class_loss,
                box_loss := some box_loss, detections := some dets }, ?_⟩
      simp only [detBenchTrain_forward_targets, hcol, hscale, hall2, if_pos]
    · refine ⟨{ detections := some dets }, ?_⟩
      simp only [detBenchTrain_forward_noTargets, hall, if_pos]

theorem detBenchTrain_scale_assertion_witness :
    (detBenchTrain_forward_targets true [[("img_scale", FieldVal.scalar 2)]] 1 1 1 []
        = Except.error assertionError
      ∧ detBenchTrain_forward_noTargets [2] [] = Except.error assertionError) :=
  (detBenchTrain_scale_assertion true [[("img_scale", FieldVal.scalar 2)]] 1 1 1 [] _
      rfl [2] rfl).1 ⟨2, by decide, by decide⟩

/-! Collation claims. -/

/-- Slice assignment that covers the whole destination replaces it
entirely, leaving no padding. -/
lemma sliceAssign_full {α : Type} (dst src : List α) (h : src.length = dst.length) :
    sliceAssign dst src = Except.ok src := by
  rw [sliceAssign, if_pos (le_of_eq h), h, List.drop_length, List.append_nil]

/-- Slice assignment of an empty source leaves the destination as
allocated. -/
lemma sliceAssign_nil {α : Type} (dst : List α) : sliceAssign dst [] = Except.ok dst := by
  simp [sliceAssign]

/-- C8 (confirmed).  Collating a two-image batch where the first image
has exactly 75 instances and the second has 0 instances: the first
image's rows of the batched array-valued fields are exactly the input
values with no zero-padding left, and the second image's rows are
entirely zero. -/
theorem my_fast_collate_roundtrip (b1 : List (List ℚ)) (l1 : List ℚ)
    (hb : b1.length = MAX_NUM_INSTANCES) (hw : ∀ r ∈ b1, r.length = 4)
    (hl : l1.length = MAX_NUM_INSTANCES) :
    my_fast_collate
        [[("boxes", FieldVal.tens2 4 b1), ("labels", FieldVal.tens1 l1)],
         [("boxes", FieldVal.tens2 4 []), ("labels", FieldVal.tens1 [])]]
      = Except.ok
          [("boxes", BatchedVal.btens2 4
              [b1, List.replicate MAX_NUM_INSTANCES (List.replicate 4 0)]),
           ("labels", BatchedVal.btens1 [l1, List.replicate MAX_NUM_INSTANCES 0])] := by
  have h1 : sliceAssign (List.replicate MAX_NUM_INSTANCES ([0, 0, 0, 0] : List ℚ)) b1
      = Except.ok b1 := sliceAssign_full _ _ (by simp [hb])
  have h2 : sliceAssign (List.replicate MAX_NUM_INSTANCES (0 : ℚ)) l1
      = Except.ok l1 := sliceAssign_full _ _ (by simp [hl])
  simp [my_fast_collate, mapCollect, lookupField, collateField, fillRow1, fillRow2,
    h1, h2, sliceAssign_nil, Except.map]

theorem my_fast_collate_roundtrip_witness :
    my_fast_collate
        [[("boxes", FieldVal.tens2 4 (List.replicate MAX_NUM_INSTANCES [1, 2, 3, 4])),
          ("labels", FieldVal.tens1 (List.replicate MAX_NUM_INSTANCES 7))],
         [("boxes", FieldVal.tens2 4 []), ("labels", FieldVal.tens1 [])]]
      = Except.ok
          [("boxes", BatchedVal.btens2 4
              [List.replicate MAX_NUM_INSTANCES [1, 2, 3, 4],
               List.replicate MAX_NUM_INSTANCES (List.replicate 4 0)]),
           ("labels", BatchedVal.btens1
              [List.replicate MAX_NUM_INSTANCES 7, List.replicate MAX_NUM_INSTANCES 0])] :=
  my_fast_collate_roundtrip _ _ (by decide) (by decide) (by decide)

/-- C5 (corrected, amended part).  Collation performs no explicit bounds
check, but an image with more than 75 instances does not get silently
truncated: the slice assignment into the 75-row allocation fails with a
size-mismatch error, so the call raises. -/
theorem my_fast_collate_overflow_raises (key : String) (d : Nat) (tv : List (List ℚ))
    (h : MAX_NUM_INSTANCES < tv.length) :
    my_fast_collate [[(key, FieldVal.tens2 d tv)]] = Except.error "size mismatch" := by
  have hlen : ¬ tv.length ≤ MAX_NUM_INSTANCES := Nat.not_le.mpr h
  simp [my_fast_collate, mapCollect, lookupField, collateField, fillRow2, sliceAssign, hlen,
    Except.map]

theorem my_fast_collate_overflow_raises_witness :
    MAX_NUM_INSTANCES < (List.replicate 80 ([1, 2] : List ℚ)).length ∧
    my_fast_collate [[("boxes", FieldVal.tens2 2 (List.replicate 80 [1, 2]))]]
      = Except.error "size mismatch" :=
  ⟨by decide, my_fast_collate_overflow_raises _ _ _ (by decide)⟩

/-- C5 counterexample.  For a batch containing an image with 76
annotated instances the collation raises a size-mismatch error rather
than silently truncating, so the claim that no error is raised is
false. -/
theorem my_fast_collate_overflow_not_silent :
    MAX_NUM_INSTANCES < (List.replicate 76 ([0, 0, 0, 0] : List ℚ)).length ∧
    my_fast_collate [[("boxes", FieldVal.tens2 4 (List.replicate 76 [0, 0, 0, 0]))]]
      = Except.error "size mismatch" := by
  exact ⟨by decide, rfl⟩

/-! Top-k selector claims. -/

lemma topkIndices_length (xs : List ℚ) (k : Nat) :
    (topkIndices xs k).length = min k xs.length := by
  simp [topkIndices]

lemma topkIndices_lt (xs : List ℚ) (k : Nat) :
    ∀ i ∈ topkIndices xs k, i < xs.length := by
  intro i hi
  obtain ⟨p, hp, rfl⟩ := List.mem_map.mp hi
  have h1 : p ∈ xs.enum := List.mem_mergeSort.mp (List.mem_of_mem_take hp)
  have h2 := List.mem_enum_iff_getElem?.mp h1
  exact (List.getElem?_eq_some_iff.mp h2).1

lemma getD_map_of_lt {α β : Type} (f : α → β) (l : List α) (j : Nat) (d : α) (e : β)
    (h : j < l.length) : (l.map f).getD j e = f (l.getD j d) := by
  rw [List.getD_eq_getElem (l.map f) e (by simpa using h), List.getD_eq_getElem l d h,
    List.getElem_map]

/-- Reading a flattened matrix with uniform row width `C` at flat index
`f` is reading row `f / C` at column `f % C`. -/
lemma flatten_getD (C : Nat) (hC : 0 < C) :
    ∀ (rows : List (List ℚ)), (∀ r ∈ rows, r.length = C) → ∀ f : Nat,
      rows.flatten.getD f 0 = (rows.getD (f / C) []).getD (f % C) 0 := by
  intro rows
  induction rows with
  | nil =>
    intro _ f
    simp
  | cons r rest ih =>
    intro hr f
    have hrlen : r.length = C := hr r (by simp)
    by_cases hf : f < C
    · rw [List.flatten_cons, List.getD_append r rest.flatten 0 f (by omega),
        Nat.div_eq_of_lt hf, Nat.mod_eq_of_lt hf, List.getD_cons_zero]
    · push_neg at hf
      rw [List.flatten_cons, List.getD_append_right r rest.flatten 0 f (by omega), hrlen,
        Nat.div_eq_sub_div hC hf, Nat.mod_eq_sub_mod hf, List.getD_cons_succ]
      exact ih (fun q hq => hr q (by simp [hq])) (f - C)

/-- C4 (confirmed).  For every valid input (at least `k` flattened
(location, class) candidates per image, the precondition of
`torch.topk`), every per-image output of `_post_process` has all four
components of length exactly `k`. -/
theorem post_process_output_lengths (numClasses k : Nat)
    (batch : List ((List (List (List ℚ))) × (List (List (List ℚ)))))
    (hk : ∀ p ∈ batch, k ≤ p.1.flatten.flatten.length)
    (res : PostProcessResult) (hres : res ∈ _post_process numClasses k batch) :
    res.indices.length = k ∧ res.classes.length = k ∧
      res.cls_after_topk.length = k ∧ res.box_after_topk.length = k := by
  obtain ⟨p, hp, rfl⟩ := List.mem_map.mp hres
  have hkp := hk p hp
  have htk : (topkIndices p.1.flatten.flatten k).length = k := by
    rw [topkIndices_length]
    omega
  simp [post_process_image, gather1, gather2, htk]

theorem post_process_output_lengths_witness :
    (post_process_image 2 3 [[[1, 2], [3, 4]]] [[[0, 0, 0, 0], [1, 1, 1, 1]]]).indices.length = 3
    ∧ (post_process_image 2 3 [[[1, 2], [3, 4]]] [[[0, 0, 0, 0], [1, 1, 1, 1]]]).classes.length = 3
    ∧ (post_process_image 2 3 [[[1, 2], [3, 4]]]
        [[[0, 0, 0, 0], [1, 1, 1, 1]]]).cls_after_topk.length = 3
    ∧ (post_process_image 2 3 [[[1, 2], [3, 4]]]
        [[[0, 0, 0, 0], [1, 1, 1, 1]]]).box_after_topk.length = 3 :=
  post_process_output_lengths 2 3 [([[[1, 2], [3, 4]]], [[[0, 0, 0, 0], [1, 1, 1, 1]]])]
    (by decide) _ (List.mem_singleton.mpr rfl)

/-- Reading the second-stage gather at a position within bounds picks
from the row at that position the entry at the paired class index. -/
lemma gather2_getD (rows : List (List ℚ)) (idx : List Nat) (j : Nat)
    (hr : j < rows.length) (hi : j < idx.length) :
    (gather2 rows idx).getD j 0 = (rows.getD j []).getD (idx.getD j 0) 0 := by
  have hz : j < (rows.zip idx).length := by
    simp [hr, hi]
  rw [gather2, List.getD_eq_getElem _ 0 (by simpa using hz), List.getElem_map,
    List.getElem_zip, List.getD_eq_getElem rows [] hr, List.getD_eq_getElem idx 0 hi]

/-- C7 (confirmed).  Each selected flat index is decomposed into a
location index by integer division by `numClasses` and a class index by
modulo `numClasses`; the box output is the box-regression row gathered at
the location index and the class-score output is the two-stage gather
(first by location, then by class), which together recover exactly the
flattened candidate value at the selected flat index. -/
theorem post_process_gather_decomposition (numClasses k : Nat) (hC : 0 < numClasses)
    (cls_levels box_levels : List (List (List ℚ)))
    (hrows : ∀ lvl ∈ cls_levels, ∀ r ∈ lvl, r.length = numClasses)
    (j : Nat) (hj : j < (topkIndices cls_levels.flatten.flatten k).length) :
    (topkIndices cls_levels.flatten.flatten k).getD j 0 < cls_levels.flatten.flatten.length
    ∧ (post_process_image numClasses k cls_levels box_levels).indices.getD j 0
        = (topkIndices cls_levels.flatten.flatten k).getD j 0 / numClasses
    ∧ (post_process_image numClasses k cls_levels box_levels).classes.getD j 0
        = (topkIndices cls_levels.flatten.flatten k).getD j 0 % numClasses
    ∧ (post_process_image numClasses k cls_levels box_levels).box_after_topk.getD j []
        = box_levels.flatten.getD
            ((topkIndices cls_levels.flatten.flatten k).getD j 0 / numClasses) []
    ∧ (post_process_image numClasses k cls_levels box_levels).cls_after_topk.getD j 0
        = (cls_levels.flatten.getD
              ((topkIndices cls_levels.flatten.flatten k).getD j 0 / numClasses) []).getD
            ((topkIndices cls_levels.flatten.flatten k).getD j 0 % numClasses) 0
    ∧ (post_process_image numClasses k cls_levels box_levels).cls_after_topk.getD j 0
        = cls_levels.flatten.flatten.getD
            ((topkIndices cls_levels.flatten.flatten k).getD j 0) 0 := by
  set tk := topkIndices cls_levels.flatten.flatten k with htkdef
  set f := tk.getD j 0 with hfdef
  have hmem : f ∈ tk := by
    rw [hfdef, List.getD_eq_getElem tk 0 hj]
    exact List.getElem_mem hj
  have hflt : f < cls_levels.flatten.flatten.length := topkIndices_lt _ _ f hmem
  have hidx : (post_process_image numClasses k cls_levels box_levels).indices
      = tk.map fun i => i / numClasses := by
    simp [post_process_image]
  have hcls : (post_process_image numClasses k cls_levels box_levels).classes
      = tk.map fun i => i % numClasses := by
    simp [post_process_image]
  have hbox : (post_process_image numClasses k cls_levels box_levels).box_after_topk
      = (tk.map fun i => i / numClasses).map fun i => box_levels.flatten.getD i [] := by
    simp [post_process_image, gather1]
  have hsc : (post_process_image numClasses k cls_levels box_levels).cls_after_topk
      = gather2 (gather1 cls_levels.flatten (tk.map fun i => i / numClasses))
          (tk.map fun i => i % numClasses) := by
    simp [post_process_image]
  have hidxD : (tk.map fun i => i / numClasses).getD j 0 = f / numClasses := by
    rw [getD_map_of_lt _ tk j 0 _ hj, hfdef]
  have hclsD : (tk.map fun i => i % numClasses).getD j 0 = f % numClasses := by
    rw [getD_map_of_lt _ tk j 0 _ hj, hfdef]
  have hboxD : ((tk.map fun i => i / numClasses).map fun i =>
      box_levels.flatten.getD i []).getD j []
      = box_levels.flatten.getD (f / numClasses) [] := by
    rw [getD_map_of_lt _ _ j 0 _ (by simpa using hj), hidxD]
  have hg1 : (gather1 cls_levels.flatten (tk.map fun i => i / numClasses)).getD j []
      = cls_levels.flatten.getD (f / numClasses) [] := by
    simp only [gather1]
    rw [getD_map_of_lt (fun i => cls_levels.flatten.getD i []) _ j 0 _ (by simpa using hj),
      hidxD]
  have hscD : (gather2 (gather1 cls_levels.flatten (tk.map fun i => i / numClasses))
      (tk.map fun i => i % numClasses)).getD j 0
      = (cls_levels.flatten.getD (f / numClasses) []).getD (f % numClasses) 0 := by
    rw [gather2_getD _ _ j (by simpa [gather1] using hj) (by simpa using hj), hg1, hclsD]
  have hflatrows : ∀ r ∈ cls_levels.flatten, r.length = numClasses := by
    intro r hr
    obtain ⟨lvl, hlvl, hrl⟩ := List.mem_flatten.mp hr
    exact hrows lvl hlvl r hrl
  have hcoh := flatten_getD numClasses hC cls_levels.flatten hflatrows f
  refine ⟨hflt, ?_, ?_, ?_, ?_, ?_⟩
  · rw [hidx, hidxD]
  · rw [hcls, hclsD]
  · rw [hbox, hboxD]
  · rw [hsc, hscD]
  · rw [hsc, hscD, ← Nat.div_add_mod f numClasses]
    rw [Nat.div_add_mod f numClasses]
    rw [hcoh]

theorem post_process_gather_decomposition_witness :
    (topkIndices ([[[1, 2], [3, 4]]] : List (List (List ℚ))).flatten.flatten 3).getD 0 0
        < ([[[1, 2], [3, 4]]] : List (List (List ℚ))).flatten.flatten.length
    ∧ (post_process_image 2 3 [[[1, 2], [3, 4]]] [[[0, 0, 0, 0], [1, 1, 1, 1]]]).indices.getD 0 0
        = (topkIndices ([[[1, 2], [3, 4]]] : List (List (List ℚ))).flatten.flatten 3).getD 0 0 / 2
    ∧ (post_process_image 2 3 [[[1, 2], [3, 4]]] [[[0, 0, 0, 0], [1, 1, 1, 1]]]).classes.getD 0 0
        = (topkIndices ([[[1, 2], [3, 4]]] : List (List (List ℚ))).flatten.flatten 3).getD 0 0 % 2
    ∧ (post_process_image 2 3 [[[1, 2], [3, 4]]]
          [[[0, 0, 0, 0], [1, 1, 1, 1]]]).box_after_topk.getD 0 []
        = ([[[0, 0, 0, 0], [1, 1, 1, 1]]] : List (List (List ℚ))).flatten.getD
            ((topkIndices ([[[1, 2], [3, 4]]] :
                List (List (List ℚ))).flatten.flatten 3).getD 0 0 / 2) []
    ∧ (post_process_image 2 3 [[[1, 2], [3, 4]]]
          [[[0, 0, 0, 0], [1, 1, 1, 1]]]).cls_after_topk.getD 0 0
        = (([[[1, 2], [3, 4]]] : List (List (List ℚ))).flatten.getD
              ((topkIndices ([[[1, 2], [3, 4]]] :
                  List (List (List ℚ))).flatten.flatten 3).getD 0 0 / 2) []).getD
            ((topkIndices ([[[1, 2], [3, 4]]] :
                List (List (List ℚ))).flatten.flatten 3).getD 0 0 % 2) 0
    ∧ (post_process_image 2 3 [[[1, 2], [3, 4]]]
          [[[0, 0, 0, 0], [1, 1, 1, 1]]]).cls_after_topk.getD 0 0
        = ([[[1, 2], [3, 4]]] : List (List (List ℚ))).flatten.flatten.getD
            ((topkIndices ([[[1, 2], [3, 4]]] : List (List (List ℚ))).flatten.flatten 3).getD 0 0)
            0 :=
  post_process_gather_decomposition 2 3 (by decide) [[[1, 2], [3, 4]]]
    [[[0, 0, 0, 0], [1, 1, 1, 1]]] (by decide) 0 (by simp [topkIndices_length])
